import Mathlib

/-!
# Subtle watchface: a shallow embedding of `src/main.c`

The program is a Pebble watchface.  Its handlers (`window_load`,
`window_unload`, `handle_second_tick`, the two layer update procedures and
`init`) are embedded as pure functions on an explicit application state
`App`, which holds the module's static variables together with the state of
the host framework.  Every call into the host framework is appended to a
trace (`Host.calls`), so that statements about which calls a handler issues,
with which arguments and in which order, are statements about that trace.

Parts of the platform that the repository does not contain (the trigonometric
lookup tables, `grect_center_point`, the hand outlines of `main.h`, the screen
size) are parameters, collected in `Env`.
-/

namespace Subtle

/-! ## Machine integers -/

/-- Narrowing conversion to `int16_t` (two's complement wrap-around). -/
def wrap16 (x : Int) : Int := (x + 32768) % 65536 - 32768

/-- Result of an `int32_t` operation (two's complement wrap-around). -/
def wrap32 (x : Int) : Int := (x + 2147483648) % 4294967296 - 2147483648

/-- The value is representable as an `int16_t`. -/
def fits16 (x : Int) : Prop := -32768 ≤ x ∧ x ≤ 32767

/-- The value is representable as an `int32_t`. -/
def fits32 (x : Int) : Prop := -2147483648 ≤ x ∧ x ≤ 2147483647

instance (x : Int) : Decidable (fits16 x) := by unfold fits16; infer_instance

instance (x : Int) : Decidable (fits32 x) := by unfold fits32; infer_instance

/-- Platform constant of `pebble.h`: the angle unit in which a full turn is
`0x10000`. -/
def TRIG_MAX_ANGLE : Int := 0x10000

/-- Platform constant of `pebble.h`: the scale of the values returned by
`sin_lookup` and `cos_lookup`. -/
def TRIG_MAX_RATIO : Int := 0xffff

/-! ## Geometry types of the host framework -/

structure GPoint where
  x : Int
  y : Int
  deriving DecidableEq, Repr, Inhabited

structure GSize where
  w : Int
  h : Int
  deriving DecidableEq, Repr, Inhabited

structure GRect where
  origin : GPoint
  size : GSize
  deriving DecidableEq, Repr, Inhabited

/-- The `GRect(x, y, w, h)` constructor of the framework: the four `int`
arguments are stored in `int16_t` fields. -/
def GRect.make (x y w h : Int) : GRect :=
  ⟨⟨wrap16 x, wrap16 y⟩, ⟨wrap16 w, wrap16 h⟩⟩

/-- The fields of `struct tm` the program reads. -/
structure Tm where
  tm_hour : Int
  tm_min : Int
  tm_sec : Int
  deriving DecidableEq, Repr

/-- The point list a hand polygon is created from (`main.h`). -/
structure GPathInfo where
  points : List GPoint
  deriving DecidableEq, Repr

/-- A polygon of the framework: its points, its rotation angle and its
translation offset, which is the pivot of the rotation. -/
structure GPath where
  points : List GPoint
  rotation : Int
  offset : GPoint
  deriving DecidableEq, Repr

inductive GColor where
  | White
  | Black
  | DarkGray
  | Folly
  deriving DecidableEq, Repr

/-- The two hand polygons, `s_hour_arrow` and `s_minute_arrow`. -/
inductive Hand where
  | hour
  | minute
  deriving DecidableEq, Repr

/-- The two layer update procedures of the program. -/
inductive UpdateProc where
  | bg_update_proc
  | hands_update_proc
  deriving DecidableEq, Repr

/-- The drawing state of a graphics context. -/
structure GContext where
  fill_color : GColor
  stroke_color : GColor
  deriving DecidableEq, Repr

/-! ## The host framework -/

/-- A pointer to an object of the host framework; `0` is `NULL`. -/
abbrev Handle := Nat

/-- The kinds of heap objects the host framework hands out. -/
inductive Kind where
  | window
  | layer
  | bitmap_layer
  | bitmap
  deriving DecidableEq, Repr

/-- One call into the host framework, with its arguments; for the creation
functions the last argument is the handle returned, for the polygon drawing
functions it is the polygon as it is at the time of the call. -/
inductive Call where
  | window_create (w root : Handle)
  | window_set_window_handlers (w : Handle)
  | window_stack_push (w : Handle)
  | layer_create (frame : GRect) (l : Handle)
  | layer_set_update_proc (l : Handle) (proc : UpdateProc)
  | layer_add_child (parent child : Handle)
  | layer_destroy (l : Handle)
  | layer_mark_dirty (l : Handle)
  | gbitmap_create_with_resource (b : Handle)
  | gbitmap_destroy (b : Handle)
  | bitmap_layer_create (frame : GRect) (l : Handle)
  | bitmap_layer_set_bitmap (l b : Handle)
  | bitmap_layer_set_compositing_mode (l : Handle)
  | bitmap_layer_destroy (l : Handle)
  | gpath_create (hand : Hand)
  | gpath_move_to (hand : Hand) (p : GPoint)
  | gpath_rotate_to (hand : Hand) (angle : Int)
  | gpath_draw_filled (color : GColor) (hand : Hand) (path : Option GPath)
  | gpath_draw_outline (color : GColor) (hand : Hand) (path : Option GPath)
  | graphics_fill_rect (color : GColor) (rect : GRect)
  | graphics_draw_line (color : GColor) (p0 p1 : GPoint)
  | tick_timer_service_subscribe
  deriving DecidableEq, Repr

/-- What the program takes from outside the repository: the build flags, the
trigonometric lookups and `grect_center_point` of the platform, the hand
outlines of `main.h`, and the bounds the framework gives to the root layer of
a new window. -/
structure Env where
  PBL_COLOR : Bool
  PBL_PLATFORM_BASALT : Bool
  sin_lookup : Int → Int
  cos_lookup : Int → Int
  grect_center_point : GRect → GPoint
  MINUTE_HAND_POINTS : GPathInfo
  HOUR_HAND_POINTS : GPathInfo
  screen : GRect

/-- State of the host framework: the next unused handle, the live heap
objects, the number of release calls that did not name a live object of the
right kind, the bounds of the layers, the root layer of each window, and the
trace of all calls received. -/
structure Host where
  next : Handle
  live : List (Handle × Kind)
  bad_frees : Nat
  bounds : List (Handle × GRect)
  roots : List (Handle × Handle)
  calls : List Call
  deriving DecidableEq, Repr

/-- The host before the program runs: nothing allocated, handle `0` is `NULL`. -/
def Host.initial : Host := ⟨1, [], 0, [], [], []⟩

def Host.record (h : Host) (c : Call) : Host :=
  { h with calls := h.calls ++ [c] }

/-- Allocation of a fresh heap object of kind `k`. -/
def Host.alloc (h : Host) (k : Kind) : Handle × Host :=
  (h.next, { h with next := h.next + 1, live := h.live ++ [(h.next, k)] })

/-- Release of the heap object `x` of kind `k`: it is removed from the live
objects when it is there, and counted as a bad release otherwise. -/
def Host.release (h : Host) (x : Handle) (k : Kind) : Host :=
  if (x, k) ∈ h.live then { h with live := h.live.erase (x, k) }
  else { h with bad_frees := h.bad_frees + 1 }

def layer_get_bounds (h : Host) (l : Handle) : GRect :=
  (h.bounds.lookup l).getD default

def window_get_root_layer (h : Host) (w : Handle) : Handle :=
  (h.roots.lookup w).getD 0

/-- A new window owns a root layer whose bounds are the screen. -/
def window_create (E : Env) (h : Host) : Handle × Host :=
  let (w, h) := h.alloc Kind.window
  let (r, h) := h.alloc Kind.layer
  let h := { h with bounds := (r, E.screen) :: h.bounds, roots := (w, r) :: h.roots }
  (w, h.record (Call.window_create w r))

/-- A new layer has the frame given and bounds of the frame's size at the
origin. -/
def layer_create (h : Host) (frame : GRect) : Handle × Host :=
  let (l, h) := h.alloc Kind.layer
  let h := { h with bounds := (l, ⟨⟨0, 0⟩, frame.size⟩) :: h.bounds }
  (l, h.record (Call.layer_create frame l))

def bitmap_layer_create (h : Host) (frame : GRect) : Handle × Host :=
  let (l, h) := h.alloc Kind.bitmap_layer
  let h := { h with bounds := (l, ⟨⟨0, 0⟩, frame.size⟩) :: h.bounds }
  (l, h.record (Call.bitmap_layer_create frame l))

def gbitmap_create_with_resource (h : Host) : Handle × Host :=
  let (b, h) := h.alloc Kind.bitmap
  (b, h.record (Call.gbitmap_create_with_resource b))

/-- The layer of a bitmap layer is the bitmap layer's first member. -/
def bitmap_layer_get_layer (l : Handle) : Handle := l

def layer_destroy (h : Host) (l : Handle) : Host :=
  (h.release l Kind.layer).record (Call.layer_destroy l)

def gbitmap_destroy (h : Host) (b : Handle) : Host :=
  (h.release b Kind.bitmap).record (Call.gbitmap_destroy b)

def bitmap_layer_destroy (h : Host) (l : Handle) : Host :=
  (h.release l Kind.bitmap_layer).record (Call.bitmap_layer_destroy l)

/-- A new polygon has rotation `0` and offset `(0, 0)`. -/
def gpath_create (info : GPathInfo) : GPath := ⟨info.points, 0, ⟨0, 0⟩⟩

/-! ## The program state -/

/-- The static variables of `main.c` and the state of the host. -/
structure App where
  s_main_window : Handle
  s_solid_bg_layer : Handle
  s_hands_layer : Handle
  s_background_layer : Handle
  s_background_bitmap : Handle
  s_minute_arrow : Option GPath
  s_hour_arrow : Option GPath
  host : Host
  deriving DecidableEq, Repr

/-- Program start: all static pointers are `NULL`. -/
def App.initial : App := ⟨0, 0, 0, 0, 0, none, none, Host.initial⟩

def App.record (st : App) (c : Call) : App :=
  { st with host := st.host.record c }

def App.path (st : App) : Hand → Option GPath
  | Hand.hour => st.s_hour_arrow
  | Hand.minute => st.s_minute_arrow

def App.set_path (st : App) (hand : Hand) (p : Option GPath) : App :=
  match hand with
  | Hand.hour => { st with s_hour_arrow := p }
  | Hand.minute => { st with s_minute_arrow := p }

def gpath_move_to (st : App) (hand : Hand) (p : GPoint) : App :=
  (st.set_path hand ((st.path hand).map fun g => { g with offset := p })).record
    (Call.gpath_move_to hand p)

def gpath_rotate_to (st : App) (hand : Hand) (angle : Int) : App :=
  (st.set_path hand ((st.path hand).map fun g => { g with rotation := angle })).record
    (Call.gpath_rotate_to hand angle)

def gpath_draw_filled (st : App) (ctx : GContext) (hand : Hand) : App :=
  st.record (Call.gpath_draw_filled ctx.fill_color hand (st.path hand))

def gpath_draw_outline (st : App) (ctx : GContext) (hand : Hand) : App :=
  st.record (Call.gpath_draw_outline ctx.stroke_color hand (st.path hand))

def graphics_fill_rect (st : App) (ctx : GContext) (rect : GRect) : App :=
  st.record (Call.graphics_fill_rect ctx.fill_color rect)

def graphics_draw_line (st : App) (ctx : GContext) (p0 p1 : GPoint) : App :=
  st.record (Call.graphics_draw_line ctx.stroke_color p0 p1)

/-! ## `main.c` -/

/-- Line 22: `bg_update_proc`. -/
def bg_update_proc (E : Env) (st : App) (layer : Handle) (ctx : GContext) : App × GContext :=
  let ctx := { ctx with fill_color := if E.PBL_COLOR then GColor.DarkGray else GColor.Black }
  (graphics_fill_rect st ctx (layer_get_bounds st.host layer), ctx)

/-- Line 39: `TRIG_MAX_ANGLE * t->tm_sec`. -/
def second_product (t : Tm) : Int := TRIG_MAX_ANGLE * t.tm_sec

/-- Line 39: `second_angle`. -/
def second_angle (t : Tm) : Int := wrap32 (Int.tdiv (wrap32 (second_product t)) 60)

/-- Line 61: `TRIG_MAX_ANGLE * t->tm_min`. -/
def minute_product (t : Tm) : Int := TRIG_MAX_ANGLE * t.tm_min

/-- Line 61: the angle of the minute hand. -/
def minute_angle (t : Tm) : Int := wrap32 (Int.tdiv (wrap32 (minute_product t)) 60)

/-- Line 48: `(t->tm_hour % 12) * 6`. -/
def hour_steps (t : Tm) : Int := Int.tmod t.tm_hour 12 * 6

/-- Line 48: `((t->tm_hour % 12) * 6) + (t->tm_min / 10)`. -/
def hour_ticks (t : Tm) : Int := wrap32 (hour_steps t) + Int.tdiv t.tm_min 10

/-- Line 48: `TRIG_MAX_ANGLE * (((t->tm_hour % 12) * 6) + (t->tm_min / 10))`. -/
def hour_product (t : Tm) : Int := TRIG_MAX_ANGLE * wrap32 (hour_ticks t)

/-- Line 48: the angle of the hour hand; `12 * 6` is the constant `72`. -/
def hour_angle (t : Tm) : Int := wrap32 (Int.tdiv (wrap32 (hour_product t)) (12 * 6))

/-- Lines 41 and 42: `(int16_t)(v * (int32_t)r / TRIG_MAX_RATIO)`. -/
def hand_component (v r : Int) : Int :=
  wrap16 (Int.tdiv (wrap32 (v * r)) TRIG_MAX_RATIO)

/-- Line 35: `second_hand_length`. -/
def second_hand_length (bounds : GRect) : Int := wrap16 (Int.tdiv bounds.size.w 2)

/-- Lines 40 to 43: the end point of the second hand. -/
def second_hand (E : Env) (bounds : GRect) (t : Tm) : GPoint :=
  let center := E.grect_center_point bounds
  ⟨wrap16 (hand_component (E.sin_lookup (second_angle t)) (second_hand_length bounds)
      + center.x),
   wrap16 (hand_component (wrap32 (-(E.cos_lookup (second_angle t))))
      (second_hand_length bounds) + center.y)⟩

/-- Lines 52 to 57: the outlines, drawn on a build without `PBL_COLOR`. -/
def draw_outlines (E : Env) (st : App) (ctx : GContext) : App × GContext :=
  if E.PBL_COLOR then (st, ctx)
  else
    let ctx := { ctx with stroke_color := GColor.Black }
    let st := gpath_draw_outline st ctx Hand.hour
    let st := gpath_draw_outline st ctx Hand.minute
    (st, ctx)

/-- Lines 72 to 79: the dot in the middle. -/
def draw_center_dot (E : Env) (st : App) (ctx : GContext) (bounds : GRect) : App × GContext :=
  let ctx := { ctx with fill_color := GColor.White }
  let st := graphics_fill_rect st ctx
    (GRect.make (Int.tdiv bounds.size.w 2 - 2) (Int.tdiv bounds.size.h 2 - 2) 5 5)
  if E.PBL_COLOR then
    let ctx := { ctx with fill_color := GColor.Folly }
    (graphics_fill_rect st ctx
      (GRect.make (Int.tdiv bounds.size.w 2 - 1) (Int.tdiv bounds.size.h 2 - 1) 3 3), ctx)
  else (st, ctx)

/-- Line 32: `hands_update_proc`; `t` is what `localtime` returns. -/
def hands_update_proc (E : Env) (st : App) (layer : Handle) (ctx : GContext) (t : Tm) :
    App × GContext :=
  let bounds := layer_get_bounds st.host layer
  let center := E.grect_center_point bounds
  let second_hand := second_hand E bounds t
  let ctx := { ctx with fill_color := GColor.White }
  let st := gpath_rotate_to st Hand.hour (hour_angle t)
  let st := gpath_draw_filled st ctx Hand.hour
  let (st, ctx) := draw_outlines E st ctx
  let st := gpath_rotate_to st Hand.minute (minute_angle t)
  let st := gpath_draw_filled st ctx Hand.minute
  let ctx := { ctx with stroke_color := if E.PBL_COLOR then GColor.Folly else GColor.White }
  let st := graphics_draw_line st ctx second_hand center
  draw_center_dot E st ctx bounds

/-- Line 83: `handle_second_tick`; its two arguments are not used. -/
def handle_second_tick (st : App) : App :=
  st.record (Call.layer_mark_dirty (window_get_root_layer st.host st.s_main_window))

/-- Line 88: `window_load`; the parameter hides the static `s_main_window`. -/
def window_load (E : Env) (st : App) (window : Handle) : App :=
  let window_layer := window_get_root_layer st.host window
  let bounds := layer_get_bounds st.host window_layer
  let (l, h) := layer_create st.host bounds
  let st := { st with s_solid_bg_layer := l, host := h }
  let st := st.record (Call.layer_set_update_proc st.s_solid_bg_layer UpdateProc.bg_update_proc)
  let st := st.record (Call.layer_add_child window_layer st.s_solid_bg_layer)
  let (b, h) := gbitmap_create_with_resource st.host
  let st := { st with s_background_bitmap := b, host := h }
  let (l, h) := bitmap_layer_create st.host bounds
  let st := { st with s_background_layer := l, host := h }
  let st := st.record (Call.bitmap_layer_set_bitmap st.s_background_layer st.s_background_bitmap)
  let st := if E.PBL_PLATFORM_BASALT
    then st.record (Call.bitmap_layer_set_compositing_mode st.s_background_layer) else st
  let st := st.record
    (Call.layer_add_child window_layer (bitmap_layer_get_layer st.s_background_layer))
  let (l, h) := layer_create st.host bounds
  let st := { st with s_hands_layer := l, host := h }
  let st := st.record (Call.layer_set_update_proc st.s_hands_layer UpdateProc.hands_update_proc)
  st.record (Call.layer_add_child window_layer st.s_hands_layer)

/-- Line 115: `window_unload`. -/
def window_unload (st : App) : App :=
  let st := { st with host := layer_destroy st.host st.s_solid_bg_layer }
  let st := { st with host := gbitmap_destroy st.host st.s_background_bitmap }
  let st := { st with host := bitmap_layer_destroy st.host st.s_background_layer }
  { st with host := layer_destroy st.host st.s_hands_layer }

/-- The framework loads a window when it is pushed: the `load` handler set in
`init` runs. -/
def window_stack_push (E : Env) (st : App) (w : Handle) : App :=
  window_load E (st.record (Call.window_stack_push w)) w

/-- Line 129: `init`. -/
def init (E : Env) (st : App) : App :=
  let (w, h) := window_create E st.host
  let st := { st with s_main_window := w, host := h }
  let st := st.record (Call.window_set_window_handlers st.s_main_window)
  let st := window_stack_push E st st.s_main_window
  let st := { st with s_minute_arrow := some (gpath_create E.MINUTE_HAND_POINTS) }
  let st := st.record (Call.gpath_create Hand.minute)
  let st := { st with s_hour_arrow := some (gpath_create E.HOUR_HAND_POINTS) }
  let st := st.record (Call.gpath_create Hand.hour)
  let window_layer := window_get_root_layer st.host st.s_main_window
  let bounds := layer_get_bounds st.host window_layer
  let center := E.grect_center_point bounds
  let st := gpath_move_to st Hand.minute center
  let st := gpath_move_to st Hand.hour center
  st.record Call.tick_timer_service_subscribe

/-! ## Observations on the trace of host calls -/

/-- The angles passed to `gpath_rotate_to` for one hand, in call order. -/
def rotations (hand : Hand) (cs : List Call) : List Int :=
  cs.filterMap fun c =>
    match c with
    | Call.gpath_rotate_to h a => if h = hand then some a else none
    | _ => none

/-- The points passed to `gpath_move_to` for one hand, in call order. -/
def moves (hand : Hand) (cs : List Call) : List GPoint :=
  cs.filterMap fun c =>
    match c with
    | Call.gpath_move_to h p => if h = hand then some p else none
    | _ => none

/-- The polygons of one hand as they were when `gpath_draw_filled` drew them. -/
def fills (hand : Hand) (cs : List Call) : List (Option GPath) :=
  cs.filterMap fun c =>
    match c with
    | Call.gpath_draw_filled _ h g => if h = hand then some g else none
    | _ => none

/-- The polygons of one hand as they were when `gpath_draw_outline` drew them. -/
def outlines (hand : Hand) (cs : List Call) : List (Option GPath) :=
  cs.filterMap fun c =>
    match c with
    | Call.gpath_draw_outline _ h g => if h = hand then some g else none
    | _ => none

/-- The end points of the lines drawn, in call order. -/
def lines (cs : List Call) : List (GPoint × GPoint) :=
  cs.filterMap fun c =>
    match c with
    | Call.graphics_draw_line _ p0 p1 => some (p0, p1)
    | _ => none

/-- The rectangles filled, each with its colour, in call order. -/
def rects (cs : List Call) : List (GColor × GRect) :=
  cs.filterMap fun c =>
    match c with
    | Call.graphics_fill_rect col r => some (col, r)
    | _ => none

/-- The layers, bitmaps and bitmap layers created, in call order. -/
def created (cs : List Call) : List (Handle × Kind) :=
  cs.filterMap fun c =>
    match c with
    | Call.layer_create _ l => some (l, Kind.layer)
    | Call.gbitmap_create_with_resource b => some (b, Kind.bitmap)
    | Call.bitmap_layer_create _ l => some (l, Kind.bitmap_layer)
    | _ => none

/-- The layers, bitmaps and bitmap layers released, in call order. -/
def released (cs : List Call) : List (Handle × Kind) :=
  cs.filterMap fun c =>
    match c with
    | Call.layer_destroy l => some (l, Kind.layer)
    | Call.gbitmap_destroy b => some (b, Kind.bitmap)
    | Call.bitmap_layer_destroy l => some (l, Kind.bitmap_layer)
    | _ => none

/-- The layers for which a redraw was requested, in call order. -/
def dirtied (cs : List Call) : List Handle :=
  cs.filterMap fun c =>
    match c with
    | Call.layer_mark_dirty l => some l
    | _ => none

/-- The bitmap shown by each bitmap layer: pairs `(bitmap layer, bitmap)`. -/
def bitmap_uses (cs : List Call) : List (Handle × Handle) :=
  cs.filterMap fun c =>
    match c with
    | Call.bitmap_layer_set_bitmap l b => some (l, b)
    | _ => none

/-- The translation offset, that is the rotation pivot, of a hand polygon. -/
def pivot (st : App) (hand : Hand) : Option GPoint :=
  (st.path hand).map GPath.offset

/-- The root layer of the main window. -/
def root_layer (st : App) : Handle :=
  window_get_root_layer st.host st.s_main_window

/-- The four resources `window_load` allocates when the next unused handle is
`n`, in the order of their creation: the solid background layer, the
background bitmap, the bitmap layer and the hands layer. -/
def resources (n : Handle) : List (Handle × Kind) :=
  [(n, Kind.layer), (n + 1, Kind.bitmap), (n + 2, Kind.bitmap_layer), (n + 3, Kind.layer)]

/-! ## Predicates of the specification -/

/-- The Euclidean distance between the pixels `p` and `c` differs from `r` by at
most `k`. -/
def off_by_at_most (k : ℝ) (p c : GPoint) (r : Int) : Prop :=
  |Real.sqrt (((p.x - c.x) ^ 2 + (p.y - c.y) ^ 2 : Int) : ℝ) - (r : ℝ)| ≤ k

/-- The Euclidean distance between the pixels `p` and `c` differs from `r` by
less than `k`. -/
def off_by_less_than (k : ℝ) (p c : GPoint) (r : Int) : Prop :=
  |Real.sqrt (((p.x - c.x) ^ 2 + (p.y - c.y) ^ 2 : Int) : ℝ) - (r : ℝ)| < k

/-- The lookups of the platform are within `tol` of the sine and cosine, scaled
by `TRIG_MAX_RATIO`, of the angle `2 * π * a / TRIG_MAX_ANGLE`. -/
def accurate_trig (E : Env) (tol : ℝ) : Prop :=
  ∀ a : Int,
    |(E.sin_lookup a : ℝ) - ( TRIG_MAX_RATIO : ℝ) * Real.sin (2 * Real.pi * a / TRIG_MAX_ANGLE)|
      ≤ tol ∧
    |(E.cos_lookup a : ℝ) - ( TRIG_MAX_RATIO : ℝ) * Real.cos (2 * Real.pi * a / TRIG_MAX_ANGLE)|
      ≤ tol

/-- The pair of lookup values is on the circle of radius `TRIG_MAX_RATIO`, up
to two units. -/
def near_unit_circle (s c : Int) : Prop :=
  ( TRIG_MAX_RATIO - 2) ^ 2 ≤ s ^ 2 + c ^ 2 ∧ s ^ 2 + c ^ 2 ≤ ( TRIG_MAX_RATIO + 2) ^ 2

instance (s c : Int) : Decidable (near_unit_circle s c) := by
  unfold near_unit_circle; infer_instance

/-! ## A sample platform -/

/-- Sample table: `TRIG_MAX_RATIO * sin`, rounded, at the sixty angles
`TRIG_MAX_ANGLE * s / 60` of the second hand. -/
def demo_sines : List Int :=
  [0, 6849, 13622, 20247, 26655, 32766, 38517, 43847, 48701, 53017, 56753, 59867, 62327,
   64102, 65176, 65535, 65176, 64104, 62329, 59869, 56756, 53021, 48706, 43852, 38523,
   32771, 26661, 20253, 13628, 6855, 0, -6849, -13622, -20247, -26655, -32766, -38517,
   -43847, -48701, -53017, -56753, -59867, -62327, -64102, -65176, -65535, -65176, -64104,
   -62329, -59869, -56756, -53021, -48706, -43852, -38523, -32771, -26661, -20253, -13628,
   -6855]

/-- Sample table: `TRIG_MAX_RATIO * cos`, rounded, at the same sixty angles. -/
def demo_cosines : List Int :=
  [65535, 65176, 64104, 62329, 59869, 56756, 53021, 48706, 43852, 38523, 32771, 26661,
   20253, 13628, 6855, 0, -6849, -13622, -20247, -26655, -32766, -38517, -43847, -48701,
   -53017, -56753, -59867, -62327, -64102, -65176, -65535, -65176, -64104, -62329, -59869,
   -56756, -53021, -48706, -43852, -38523, -32771, -26661, -20253, -13628, -6855, 0, 6849,
   13622, 20247, 26655, 32766, 38517, 43847, 48701, 53017, 56753, 59867, 62327, 64102,
   65176]

/-- Index of a second-hand angle in the sample tables. -/
def demo_index (a : Int) : Nat := ((a * 60 + 59) / 65536).toNat

/-- Sample geometric centre of a rectangle. -/
def demo_center (r : GRect) : GPoint :=
  ⟨wrap16 (r.origin.x + Int.tdiv r.size.w 2), wrap16 (r.origin.y + Int.tdiv r.size.h 2)⟩

/-- A sample monochrome platform with a screen of `144 x 168` pixels. -/
def demo : Env :=
  ⟨false, false, fun a => demo_sines.getD (demo_index a) 0,
   fun a => demo_cosines.getD (demo_index a) 0, demo_center,
   ⟨[⟨-8, 20⟩, ⟨8, 20⟩, ⟨0, -80⟩]⟩, ⟨[⟨-6, 20⟩, ⟨6, 20⟩, ⟨0, -60⟩]⟩,
   ⟨⟨0, 0⟩, ⟨144, 168⟩⟩⟩

/-- The graphics context a redraw starts from in the examples. -/
def demo_ctx : GContext := ⟨GColor.Black, GColor.Black⟩

/-- The sample program after `init` on the sample platform. -/
def demo_loaded : App := init demo App.initial

/-! ## Machine arithmetic: helper lemmas -/

theorem wrap32_of_fits {x : Int} (h : fits32 x) : wrap32 x = x := by
  unfold fits32 at h
  unfold wrap32
  omega

theorem wrap16_of_fits {x : Int} (h : fits16 x) : wrap16 x = x := by
  unfold fits16 at h
  unfold wrap16
  omega

/-- Scaling by sixty sixtieths of a turn: the product and the quotient of the
second and minute angles stay in range. -/
theorem sixtieth_turn {x : Int} (h0 : 0 ≤ x) (h1 : x ≤ 59) :
    wrap32 (Int.tdiv (wrap32 (TRIG_MAX_ANGLE * x)) 60) = TRIG_MAX_ANGLE * x / 60 := by
  have w1 : wrap32 (TRIG_MAX_ANGLE * x) = TRIG_MAX_ANGLE * x :=
    wrap32_of_fits (by unfold fits32 TRIG_MAX_ANGLE; omega)
  have d1 : Int.tdiv (TRIG_MAX_ANGLE * x) 60 = TRIG_MAX_ANGLE * x / 60 :=
    Int.tdiv_eq_ediv (by unfold TRIG_MAX_ANGLE; omega) (by decide)
  rw [w1, d1]
  exact wrap32_of_fits (by unfold fits32 TRIG_MAX_ANGLE; omega)

theorem hour_ticks_eq (t : Tm) (h0 : 0 ≤ t.tm_hour) (m0 : 0 ≤ t.tm_min) :
    hour_ticks t = t.tm_hour % 12 * 6 + t.tm_min / 10 := by
  have e1 : Int.tmod t.tm_hour 12 = t.tm_hour % 12 := Int.tmod_eq_emod h0 (by decide)
  have e2 : Int.tdiv t.tm_min 10 = t.tm_min / 10 := Int.tdiv_eq_ediv m0 (by decide)
  unfold hour_ticks hour_steps
  rw [e1, e2, wrap32_of_fits (by unfold fits32; omega)]

theorem hour_angle_eq (t : Tm) (h0 : 0 ≤ t.tm_hour) (m0 : 0 ≤ t.tm_min) (m1 : t.tm_min ≤ 59) :
    hour_angle t = TRIG_MAX_ANGLE * (t.tm_hour % 12 * 6 + t.tm_min / 10) / 72 := by
  have s2 := hour_ticks_eq t h0 m0
  have s3 : hour_product t = TRIG_MAX_ANGLE * (t.tm_hour % 12 * 6 + t.tm_min / 10) := by
    unfold hour_product
    rw [s2, wrap32_of_fits (by unfold fits32; omega)]
  have w1 : wrap32 (TRIG_MAX_ANGLE * (t.tm_hour % 12 * 6 + t.tm_min / 10))
      = TRIG_MAX_ANGLE * (t.tm_hour % 12 * 6 + t.tm_min / 10) :=
    wrap32_of_fits (by unfold fits32 TRIG_MAX_ANGLE; omega)
  have d1 : Int.tdiv (TRIG_MAX_ANGLE * (t.tm_hour % 12 * 6 + t.tm_min / 10)) (12 * 6)
      = TRIG_MAX_ANGLE * (t.tm_hour % 12 * 6 + t.tm_min / 10) / 72 :=
    Int.tdiv_eq_ediv (by unfold TRIG_MAX_ANGLE; omega) (by decide)
  unfold hour_angle
  rw [s3, w1, d1]
  exact wrap32_of_fits (by unfold fits32 TRIG_MAX_ANGLE; omega)

theorem hands_rotations (E : Env) (st : App) (layer : Handle) (ctx : GContext) (t : Tm)
    (hand : Hand) :
    rotations hand (hands_update_proc E st layer ctx t).1.host.calls
      = rotations hand st.host.calls
        ++ [match hand with
            | Hand.hour => hour_angle t
            | Hand.minute => minute_angle t] := by
  cases hc : E.PBL_COLOR <;> cases hand <;>
  simp [hands_update_proc, draw_outlines, draw_center_dot, gpath_rotate_to, gpath_draw_filled,
    gpath_draw_outline, graphics_draw_line, graphics_fill_rect, App.record, Host.record,
    App.set_path, rotations, hc, List.filterMap_append]

/-! ## The hand angles -/

/-- C1. For every hour in 0..23 and minute in 0..59, `hands_update_proc` calls
`gpath_rotate_to` for the hour hand exactly once, with the angle
`TRIG_MAX_ANGLE * ((h % 12) * 6 + m / 10) / 72` in floor division; the angle is
the same at any other time with the same `h % 12` and the same ten-minute
bucket `m / 10`. -/
theorem hour_hand_angle (E : Env) (st : App) (layer : Handle) (ctx : GContext) (t : Tm)
    (hh : 0 ≤ t.tm_hour ∧ t.tm_hour ≤ 23) (hm : 0 ≤ t.tm_min ∧ t.tm_min ≤ 59) :
    rotations Hand.hour (hands_update_proc E st layer ctx t).1.host.calls
        = rotations Hand.hour st.host.calls
          ++ [TRIG_MAX_ANGLE * ((t.tm_hour % 12) * 6 + t.tm_min / 10) / 72]
      ∧ ∀ u : Tm, 0 ≤ u.tm_hour ∧ u.tm_hour ≤ 23 →
          0 ≤ u.tm_min ∧ u.tm_min ≤ 59 →
          u.tm_hour % 12 = t.tm_hour % 12 → u.tm_min / 10 = t.tm_min / 10 →
          hour_angle u = hour_angle t := by
  refine ⟨?_, ?_⟩
  · rw [hands_rotations, hour_angle_eq t hh.1 hm.1 hm.2]
  · intro u uh um e1 e2
    rw [hour_angle_eq t hh.1 hm.1 hm.2, hour_angle_eq u uh.1 um.1 um.2, e1, e2]

/-- Witness of C1: at 3:00 the hour hand is at a quarter turn (`16384`); at
3:59, and at every other minute of the bucket 50..59, it is at
`TRIG_MAX_ANGLE * 23 / 72 = 20935`. -/
theorem hour_hand_angle_witness :
    rotations Hand.hour (hands_update_proc demo demo_loaded 6 demo_ctx ⟨3, 0, 0⟩).1.host.calls
        = [TRIG_MAX_ANGLE / 4]
      ∧ rotations Hand.hour
          (hands_update_proc demo demo_loaded 6 demo_ctx ⟨3, 59, 0⟩).1.host.calls
        = [TRIG_MAX_ANGLE * 23 / 72]
      ∧ hour_angle ⟨3, 50, 0⟩ = hour_angle ⟨3, 59, 0⟩
      ∧ hour_angle ⟨15, 59, 30⟩ = hour_angle ⟨3, 59, 0⟩ := by
  have a := hour_hand_angle demo demo_loaded 6 demo_ctx ⟨3, 0, 0⟩ (by decide) (by decide)
  have b := hour_hand_angle demo demo_loaded 6 demo_ctx ⟨3, 59, 0⟩ (by decide) (by decide)
  refine ⟨?_, ?_, ?_, ?_⟩
  · rw [a.1]; decide
  · rw [b.1]; decide
  · exact b.2 ⟨3, 50, 0⟩ (by decide) (by decide) (by decide) (by decide)
  · exact b.2 ⟨15, 59, 30⟩ (by decide) (by decide) (by decide) (by decide)


/-- C2. For every minute in 0..59, `hands_update_proc` calls `gpath_rotate_to`
for the minute hand exactly once, with the angle `TRIG_MAX_ANGLE * m / 60` in
floor division; the angle is the same at any other time with the same minute,
whatever its hour and second. -/
theorem minute_hand_angle (E : Env) (st : App) (layer : Handle) (ctx : GContext) (t : Tm)
    (hm : 0 ≤ t.tm_min ∧ t.tm_min ≤ 59) :
    rotations Hand.minute (hands_update_proc E st layer ctx t).1.host.calls
        = rotations Hand.minute st.host.calls ++ [TRIG_MAX_ANGLE * t.tm_min / 60]
      ∧ ∀ u : Tm, u.tm_min = t.tm_min → minute_angle u = minute_angle t := by
  refine ⟨?_, ?_⟩
  · rw [hands_rotations]
    show _ ++ [minute_angle t] = _
    unfold minute_angle minute_product
    rw [sixtieth_turn hm.1 hm.2]
  · intro u e
    unfold minute_angle minute_product
    rw [e]

/-- Witness of C2: at minute 30 the minute hand is at half a turn, at 10:30:07
as at 22:30:59. -/
theorem minute_hand_angle_witness :
    rotations Hand.minute
        (hands_update_proc demo demo_loaded 6 demo_ctx ⟨10, 30, 7⟩).1.host.calls = [32768]
      ∧ minute_angle ⟨22, 30, 59⟩ = minute_angle ⟨10, 30, 7⟩ := by
  have a := minute_hand_angle demo demo_loaded 6 demo_ctx ⟨10, 30, 7⟩ (by decide)
  refine ⟨?_, a.2 ⟨22, 30, 59⟩ rfl⟩
  rw [a.1]; decide

/-! ## Absence of overflow -/

theorem tdiv_abs_le {p r : Int} (h1 : -( TRIG_MAX_RATIO * r) ≤ p)
    (h2 : p ≤ TRIG_MAX_RATIO * r) :
    -r ≤ Int.tdiv p TRIG_MAX_RATIO ∧ Int.tdiv p TRIG_MAX_RATIO ≤ r := by
  unfold TRIG_MAX_RATIO at *
  rcases le_or_lt 0 p with hp | hp
  · rw [Int.tdiv_eq_ediv hp (by decide)]
    omega
  · have e : Int.tdiv p 65535 = -(Int.tdiv (-p) 65535) := by
      rw [Int.neg_tdiv, neg_neg]
    rw [e, Int.tdiv_eq_ediv (by omega) (by decide)]
    omega

theorem product_bounds {v r : Int} (hr0 : 0 ≤ r) (hv1 : - TRIG_MAX_RATIO ≤ v)
    (hv2 : v ≤ TRIG_MAX_RATIO) :
    -( TRIG_MAX_RATIO * r) ≤ v * r ∧ v * r ≤ TRIG_MAX_RATIO * r := by
  constructor <;> nlinarith

/-- C10. For every hour in 0..23, minute in 0..59 and second in 0..59, every
intermediate product of the three angle computations fits in `int32_t` and
each angle is in `[0, TRIG_MAX_ANGLE)`; and for every hand length `r` in
`0..32767` and lookup value `v` with `|v| ≤ TRIG_MAX_RATIO`, the product
`v * r` fits in `int32_t`, the quotient `v * r / TRIG_MAX_RATIO` fits in
`int16_t`, and the value the code computes with its casts is that quotient. -/
theorem no_overflow (t : Tm) (hh : 0 ≤ t.tm_hour ∧ t.tm_hour ≤ 23)
    (hm : 0 ≤ t.tm_min ∧ t.tm_min ≤ 59) (hs : 0 ≤ t.tm_sec ∧ t.tm_sec ≤ 59) :
    (fits32 (second_product t) ∧ fits32 (minute_product t) ∧ fits32 (hour_steps t)
        ∧ fits32 (hour_ticks t) ∧ fits32 (hour_product t))
      ∧ (0 ≤ second_angle t ∧ second_angle t < TRIG_MAX_ANGLE)
      ∧ (0 ≤ minute_angle t ∧ minute_angle t < TRIG_MAX_ANGLE)
      ∧ (0 ≤ hour_angle t ∧ hour_angle t < TRIG_MAX_ANGLE)
      ∧ ∀ r v : Int, 0 ≤ r ∧ r ≤ 32767 →
          - TRIG_MAX_RATIO ≤ v ∧ v ≤ TRIG_MAX_RATIO →
          fits32 (v * r) ∧ fits32 (-v) ∧ fits32 (-v * r)
            ∧ fits16 (Int.tdiv (v * r) TRIG_MAX_RATIO)
            ∧ hand_component v r = Int.tdiv (v * r) TRIG_MAX_RATIO
            ∧ hand_component (wrap32 (-v)) r = Int.tdiv (-v * r) TRIG_MAX_RATIO := by
  obtain ⟨h0, h1⟩ := hh
  obtain ⟨m0, m1⟩ := hm
  obtain ⟨s0, s1⟩ := hs
  have ticks := hour_ticks_eq t h0 m0
  refine ⟨⟨?_, ?_, ?_, ?_, ?_⟩, ?_, ?_, ?_, ?_⟩
  · unfold fits32 second_product TRIG_MAX_ANGLE; omega
  · unfold fits32 minute_product TRIG_MAX_ANGLE; omega
  · unfold hour_steps
    rw [Int.tmod_eq_emod h0 (by decide)]
    unfold fits32; omega
  · rw [ticks]; unfold fits32; omega
  · unfold hour_product
    rw [ticks, wrap32_of_fits (by unfold fits32; omega)]
    unfold fits32 TRIG_MAX_ANGLE; omega
  · unfold second_angle second_product
    rw [sixtieth_turn s0 s1]
    unfold TRIG_MAX_ANGLE; omega
  · unfold minute_angle minute_product
    rw [sixtieth_turn m0 m1]
    unfold TRIG_MAX_ANGLE; omega
  · rw [hour_angle_eq t h0 m0 m1]
    unfold TRIG_MAX_ANGLE; omega
  · intro r v hr hv
    have pb := product_bounds hr.1 hv.1 hv.2
    have nb := product_bounds (v := -v) hr.1 (by omega) (by omega)
    have q1 := tdiv_abs_le pb.1 pb.2
    have q2 := tdiv_abs_le nb.1 nb.2
    have f1 : fits32 (v * r) := by
      unfold fits32; unfold TRIG_MAX_RATIO at pb; omega
    have f2 : fits32 (-v) := by
      unfold fits32; unfold TRIG_MAX_RATIO at hv; omega
    have f3 : fits32 (-v * r) := by
      unfold fits32; unfold TRIG_MAX_RATIO at nb; omega
    refine ⟨f1, f2, f3, ?_, ?_, ?_⟩
    · unfold fits16; omega
    · unfold hand_component
      rw [wrap32_of_fits f1]
      exact wrap16_of_fits (by unfold fits16; omega)
    · unfold hand_component
      rw [wrap32_of_fits f2, wrap32_of_fits f3]
      exact wrap16_of_fits (by unfold fits16; omega)

/-- Witness of C10: the time 23:59:59 with the longest hand and the largest
lookup value. -/
theorem no_overflow_witness :
    fits32 (hour_product ⟨23, 59, 59⟩) ∧ hour_angle ⟨23, 59, 59⟩ < TRIG_MAX_ANGLE
      ∧ hand_component 65535 32767 = 32767
      ∧ hand_component (wrap32 (-65535)) 32767 = -32767 := by
  have a := no_overflow ⟨23, 59, 59⟩ (by decide) (by decide) (by decide)
  have b := a.2.2.2.2 32767 65535 (by decide) (by decide)
  refine ⟨a.1.2.2.2.2, a.2.2.2.1.2, ?_, ?_⟩
  · rw [b.2.2.2.2.1]; decide
  · rw [b.2.2.2.2.2]; decide


/-! ## The drawing calls of a redraw -/

theorem wrap16_half {w : Int} (hw : fits16 w) (k : Int) (k0 : -2 ≤ k) (k1 : k ≤ 0) :
    wrap16 (Int.tdiv w 2 + k) = Int.tdiv w 2 + k := by
  unfold fits16 at hw
  apply wrap16_of_fits
  unfold fits16
  rcases le_or_lt 0 w with hp | hp
  · rw [Int.tdiv_eq_ediv hp (by decide)]; omega
  · have e : Int.tdiv w 2 = -(Int.tdiv (-w) 2) := by rw [Int.neg_tdiv, neg_neg]
    rw [e, Int.tdiv_eq_ediv (by omega) (by decide)]; omega

/-- C6. For every time and every layer bounds whose width `w` and height `h`
are `int16_t` values, `hands_update_proc` fills one white rectangle, with
origin `(w / 2 - 2, h / 2 - 2)` in C division and size `5 x 5`; a build with
`PBL_COLOR` then fills the `3 x 3` accent rectangle, a monochrome build no
other rectangle.  Neither depends on the time. -/
theorem center_dot (E : Env) (st : App) (layer : Handle) (ctx : GContext) (t : Tm)
    (hw : fits16 (layer_get_bounds st.host layer).size.w)
    (hh : fits16 (layer_get_bounds st.host layer).size.h) :
    rects (hands_update_proc E st layer ctx t).1.host.calls
      = rects st.host.calls
        ++ (GColor.White,
            (⟨⟨Int.tdiv (layer_get_bounds st.host layer).size.w 2 - 2,
               Int.tdiv (layer_get_bounds st.host layer).size.h 2 - 2⟩, ⟨5, 5⟩⟩ : GRect))
          :: (if E.PBL_COLOR then
                [(GColor.Folly,
                  (⟨⟨Int.tdiv (layer_get_bounds st.host layer).size.w 2 - 1,
                     Int.tdiv (layer_get_bounds st.host layer).size.h 2 - 1⟩,
                    ⟨3, 3⟩⟩ : GRect))]
              else []) := by
  have a1 := wrap16_half hw (-2) (by decide) (by decide)
  have a2 := wrap16_half hh (-2) (by decide) (by decide)
  have a3 := wrap16_half hw (-1) (by decide) (by decide)
  have a4 := wrap16_half hh (-1) (by decide) (by decide)
  have w5 : wrap16 5 = 5 := by decide
  have w3 : wrap16 3 = 3 := by decide
  simp only [← sub_eq_add_neg] at a1 a2 a3 a4
  cases hc : E.PBL_COLOR <;>
  simp [hands_update_proc, draw_outlines, draw_center_dot, gpath_rotate_to, gpath_draw_filled,
    gpath_draw_outline, graphics_draw_line, graphics_fill_rect, App.record, Host.record,
    App.set_path, rects, hc, List.filterMap_append, GRect.make, a1, a2, a3, a4, w5, w3]

/-- Witness of C6: on the `144 x 168` screen the dot is at `(70, 82)`, at
10:30:07 as at 23:59:59. -/
theorem center_dot_witness :
    rects (hands_update_proc demo demo_loaded 6 demo_ctx ⟨10, 30, 7⟩).1.host.calls
        = [(GColor.White, ⟨⟨70, 82⟩, ⟨5, 5⟩⟩)]
      ∧ rects (hands_update_proc demo demo_loaded 6 demo_ctx ⟨23, 59, 59⟩).1.host.calls
        = [(GColor.White, ⟨⟨70, 82⟩, ⟨5, 5⟩⟩)] := by
  have a := center_dot demo demo_loaded 6 demo_ctx ⟨10, 30, 7⟩ (by decide) (by decide)
  have b := center_dot demo demo_loaded 6 demo_ctx ⟨23, 59, 59⟩ (by decide) (by decide)
  constructor
  · rw [a]; decide
  · rw [b]; decide


/-- On a build without `PBL_COLOR` a redraw strokes the hour outline after the
hour polygon was rotated, but the minute outline before the minute polygon is
rotated: the minute outline is the polygon as the redraw found it. -/
theorem outlines_of_redraw (E : Env) (st : App) (layer : Handle) (ctx : GContext) (t : Tm)
    (hc : E.PBL_COLOR = false) :
    outlines Hand.hour (hands_update_proc E st layer ctx t).1.host.calls
        = outlines Hand.hour st.host.calls
          ++ [st.s_hour_arrow.map fun g => { g with rotation := hour_angle t }]
      ∧ fills Hand.hour (hands_update_proc E st layer ctx t).1.host.calls
        = fills Hand.hour st.host.calls
          ++ [st.s_hour_arrow.map fun g => { g with rotation := hour_angle t }]
      ∧ outlines Hand.minute (hands_update_proc E st layer ctx t).1.host.calls
        = outlines Hand.minute st.host.calls ++ [st.s_minute_arrow]
      ∧ fills Hand.minute (hands_update_proc E st layer ctx t).1.host.calls
        = fills Hand.minute st.host.calls
          ++ [st.s_minute_arrow.map fun g => { g with rotation := minute_angle t }] := by
  refine ⟨?_, ?_, ?_, ?_⟩ <;>
  simp [hands_update_proc, draw_outlines, draw_center_dot, gpath_rotate_to, gpath_draw_filled,
    gpath_draw_outline, graphics_draw_line, graphics_fill_rect, App.record, Host.record,
    App.set_path, App.path, outlines, fills, hc, List.filterMap_append]

/-- C9 fails on the code. Two successive redraws of the monochrome sample, at
10:00:59 and at 10:01:00: the second redraw fills the minute polygon at the
angle `1092` of minute 1 but strokes its outline at the angle `0` of the
redraw before, while the hour outline is stroked at the angle at which the
hour polygon is filled. -/
theorem minute_outline_at_previous_angle :
    (outlines Hand.minute
        (hands_update_proc demo (hands_update_proc demo demo_loaded 6 demo_ctx ⟨10, 0, 59⟩).1
          6 demo_ctx ⟨10, 1, 0⟩).1.host.calls).map (Option.map GPath.rotation)
        = [some 0, some 0]
      ∧ (fills Hand.minute
        (hands_update_proc demo (hands_update_proc demo demo_loaded 6 demo_ctx ⟨10, 0, 59⟩).1
          6 demo_ctx ⟨10, 1, 0⟩).1.host.calls).map (Option.map GPath.rotation)
        = [some 0, some 1092]
      ∧ minute_angle ⟨10, 1, 0⟩ = 1092
      ∧ outlines Hand.hour
        (hands_update_proc demo (hands_update_proc demo demo_loaded 6 demo_ctx ⟨10, 0, 59⟩).1
          6 demo_ctx ⟨10, 1, 0⟩).1.host.calls
        = fills Hand.hour
        (hands_update_proc demo (hands_update_proc demo demo_loaded 6 demo_ctx ⟨10, 0, 59⟩).1
          6 demo_ctx ⟨10, 1, 0⟩).1.host.calls := by
  decide

/-! ## The window life cycle -/

theorem window_load_effect (E : Env) (st : App) (window : Handle) :
    (window_load E st window).host.live = st.host.live ++ resources st.host.next
      ∧ (window_load E st window).host.bad_frees = st.host.bad_frees
      ∧ (window_load E st window).host.next = st.host.next + 4
      ∧ (window_load E st window).s_solid_bg_layer = st.host.next
      ∧ (window_load E st window).s_background_bitmap = st.host.next + 1
      ∧ (window_load E st window).s_background_layer = st.host.next + 2
      ∧ (window_load E st window).s_hands_layer = st.host.next + 3
      ∧ created (window_load E st window).host.calls
          = created st.host.calls ++ resources st.host.next
      ∧ released (window_load E st window).host.calls = released st.host.calls
      ∧ bitmap_uses (window_load E st window).host.calls
          = bitmap_uses st.host.calls ++ [(st.host.next + 2, st.host.next + 1)] := by
  cases hb : E.PBL_PLATFORM_BASALT <;>
  simp [window_load, layer_create, gbitmap_create_with_resource, bitmap_layer_create,
    bitmap_layer_get_layer, Host.alloc, Host.record, App.record, resources, created, released,
    bitmap_uses, hb, List.filterMap_append]

theorem window_unload_effect (st : App) (n : Handle) (l : List (Handle × Kind))
    (hl : st.host.live = l ++ resources n)
    (h1 : st.s_solid_bg_layer = n) (h2 : st.s_background_bitmap = n + 1)
    (h3 : st.s_background_layer = n + 2) (h4 : st.s_hands_layer = n + 3) :
    (window_unload st).host.live.length = l.length
      ∧ (window_unload st).host.bad_frees = st.host.bad_frees
      ∧ released (window_unload st).host.calls = released st.host.calls ++ resources n := by
  have m1 : (n, Kind.layer) ∈ st.host.live := by simp [hl, resources]
  have m2 : (n + 1, Kind.bitmap) ∈ st.host.live.erase (n, Kind.layer) := by
    rw [List.mem_erase_of_ne (by simp)]; simp [hl, resources]
  have m3 : (n + 2, Kind.bitmap_layer)
      ∈ (st.host.live.erase (n, Kind.layer)).erase (n + 1, Kind.bitmap) := by
    rw [List.mem_erase_of_ne (by simp), List.mem_erase_of_ne (by simp)]; simp [hl, resources]
  have m4 : (n + 3, Kind.layer)
      ∈ ((st.host.live.erase (n, Kind.layer)).erase (n + 1, Kind.bitmap)).erase
          (n + 2, Kind.bitmap_layer) := by
    rw [List.mem_erase_of_ne (by simp), List.mem_erase_of_ne (by simp),
      List.mem_erase_of_ne (by simp)]
    simp [hl, resources]
  have len : ((((st.host.live.erase (n, Kind.layer)).erase (n + 1, Kind.bitmap)).erase
      (n + 2, Kind.bitmap_layer)).erase (n + 3, Kind.layer)).length = l.length := by
    rw [List.length_erase_of_mem m4, List.length_erase_of_mem m3, List.length_erase_of_mem m2,
      List.length_erase_of_mem m1, hl]
    simp [resources]
  refine ⟨?_, ?_, ?_⟩
  · simpa [window_unload, layer_destroy, gbitmap_destroy, bitmap_layer_destroy, Host.release,
      Host.record, h1, h2, h3, h4, m1, m2, m3, m4] using len
  · simp [window_unload, layer_destroy, gbitmap_destroy, bitmap_layer_destroy, Host.release,
      Host.record, h1, h2, h3, h4, m1, m2, m3, m4]
  · simp [window_unload, layer_destroy, gbitmap_destroy, bitmap_layer_destroy, Host.release,
      Host.record, h1, h2, h3, h4, m1, m2, m3, m4, released, resources, List.filterMap_append]

theorem beq_add_false (n k : Nat) (hk : 0 < k) : (n == n + k) = false := by
  rw [beq_eq_false_iff_ne]; omega

theorem init_effect (E : Env) (st : App) :
    (init E st).s_main_window = st.host.next
      ∧ root_layer (init E st) = st.host.next + 1
      ∧ (init E st).s_hands_layer = st.host.next + 5
      ∧ layer_get_bounds (init E st).host (root_layer (init E st)) = E.screen
      ∧ layer_get_bounds (init E st).host (init E st).s_hands_layer
          = ⟨⟨0, 0⟩, E.screen.size⟩
      ∧ (init E st).s_hour_arrow
          = some ⟨E.HOUR_HAND_POINTS.points, 0, E.grect_center_point E.screen⟩
      ∧ (init E st).s_minute_arrow
          = some ⟨E.MINUTE_HAND_POINTS.points, 0, E.grect_center_point E.screen⟩
      ∧ dirtied (init E st).host.calls = dirtied st.host.calls
      ∧ (∀ hand, moves hand (init E st).host.calls
          = moves hand st.host.calls ++ [E.grect_center_point E.screen])
      ∧ Call.layer_add_child (st.host.next + 1) (st.host.next + 5)
          ∈ (init E st).host.calls := by
  have e1 := beq_add_false st.host.next 1 (by decide)
  have e3 := beq_add_false st.host.next 3 (by decide)
  have e4 := beq_add_false st.host.next 4 (by decide)
  cases hb : E.PBL_PLATFORM_BASALT <;>
  simp [init, window_stack_push, window_create, window_load, layer_create,
    gbitmap_create_with_resource, bitmap_layer_create,
    bitmap_layer_get_layer, Host.alloc, Host.record, App.record, root_layer,
    window_get_root_layer, layer_get_bounds, gpath_move_to, gpath_create, App.set_path, App.path,
    dirtied, moves, hb, List.filterMap_append, List.lookup, e1, e3, e4] <;>
  intro hand <;> cases hand <;> simp

theorem release_calls (h : Host) (x : Handle) (k : Kind) : (h.release x k).calls = h.calls := by
  unfold Host.release
  split <;> rfl

/-- C4 fails on the code. After `init` on the sample platform `window_load` has
created the layer 3, the bitmap 4, the bitmap layer 5 (which shows the bitmap
4) and the layer 6; `window_unload` releases them in that same order and not
in the reverse one, the bitmap before the bitmap layer that shows it. -/
theorem release_order_not_reversed :
    released (window_unload demo_loaded).host.calls
        ≠ (created demo_loaded.host.calls).reverse
      ∧ created demo_loaded.host.calls
        = [(3, Kind.layer), (4, Kind.bitmap), (5, Kind.bitmap_layer), (6, Kind.layer)]
      ∧ released (window_unload demo_loaded).host.calls
        = [(3, Kind.layer), (4, Kind.bitmap), (5, Kind.bitmap_layer), (6, Kind.layer)]
      ∧ bitmap_uses demo_loaded.host.calls = [(5, 4)] := by
  decide

/-- C4 as amended. `window_unload` after `window_load` releases the four
resources `window_load` created (solid background layer, background bitmap,
bitmap layer, hands layer): each is live when it is released, each is
released exactly once, and they are released in the order in which
`window_load` created them, so the bitmap is released before the bitmap layer
that shows it. -/
theorem unload_releases_in_creation_order (E : Env) (st : App) (window : Handle) :
    created (window_load E st window).host.calls
        = created st.host.calls ++ resources st.host.next
      ∧ released (window_unload (window_load E st window)).host.calls
        = released st.host.calls ++ resources st.host.next
      ∧ (resources st.host.next).Nodup
      ∧ (∀ x ∈ resources st.host.next, x ∈ (window_load E st window).host.live)
      ∧ (window_unload (window_load E st window)).host.bad_frees = st.host.bad_frees
      ∧ bitmap_uses (window_load E st window).host.calls
        = bitmap_uses st.host.calls ++ [(st.host.next + 2, st.host.next + 1)] := by
  obtain ⟨l1, l2, _, l4, l5, l6, l7, l8, l9, l10⟩ := window_load_effect E st window
  obtain ⟨_, u2, u3⟩ := window_unload_effect (window_load E st window) st.host.next
    st.host.live l1 l4 l5 l6 l7
  refine ⟨l8, ?_, ?_, ?_, ?_, l10⟩
  · rw [u3, l9]
  · simp [resources]
  · intro x hx
    rw [l1]
    exact List.mem_append_right _ hx
  · rw [u2, l2]

/-- C5. `window_load; window_unload` returns the number of live allocations to
its value before the load, `window_load; window_unload; window_load` leaves
as many live allocations as a single `window_load`, and in both sequences
every release names a live object: nothing leaks, nothing is released twice. -/
theorem show_hide_show (E : Env) (st : App) (w1 w2 : Handle) :
    (window_unload (window_load E st w1)).host.live.length = st.host.live.length
      ∧ (window_unload (window_load E st w1)).host.bad_frees = st.host.bad_frees
      ∧ (window_load E (window_unload (window_load E st w1)) w2).host.live.length
        = (window_load E st w1).host.live.length
      ∧ (window_load E (window_unload (window_load E st w1)) w2).host.bad_frees
        = st.host.bad_frees := by
  obtain ⟨l1, l2, _, l4, l5, l6, l7, _⟩ := window_load_effect E st w1
  obtain ⟨u1, u2, _⟩ := window_unload_effect (window_load E st w1) st.host.next
    st.host.live l1 l4 l5 l6 l7
  obtain ⟨r1, r2, _⟩ := window_load_effect E (window_unload (window_load E st w1)) w2
  refine ⟨u1, ?_, ?_, ?_⟩
  · rw [u2, l2]
  · rw [r1, l1, List.length_append, List.length_append, u1]
    simp [resources]
  · rw [r2, u2, l2]

/-- C7 fails on the code. After `init` on the sample platform the hands layer
is the layer 6 and the root layer of the window is the layer 2; a tick
requests the redraw of the layer 2, not of the hands layer. -/
theorem tick_does_not_mark_hands_layer :
    dirtied (handle_second_tick demo_loaded).host.calls ≠ [demo_loaded.s_hands_layer]
      ∧ dirtied (handle_second_tick demo_loaded).host.calls = [2]
      ∧ demo_loaded.s_hands_layer = 6 ∧ root_layer demo_loaded = 2 := by
  decide

/-- C7 as amended. Each tick delivered to `handle_second_tick` results in
exactly one mark-dirty request, on the root layer of the main window; no
other handler (`window_load`, `window_unload`, the two update procedures,
`init`) issues a mark-dirty request.  After `init` the hands layer is a child
of that root layer and a different layer. -/
theorem tick_marks_root_layer (E : Env) (st : App) :
    dirtied (handle_second_tick st).host.calls = dirtied st.host.calls ++ [root_layer st]
      ∧ (∀ w, dirtied (window_load E st w).host.calls = dirtied st.host.calls)
      ∧ dirtied (window_unload st).host.calls = dirtied st.host.calls
      ∧ (∀ l ctx t, dirtied (hands_update_proc E st l ctx t).1.host.calls
          = dirtied st.host.calls)
      ∧ (∀ l ctx, dirtied (bg_update_proc E st l ctx).1.host.calls = dirtied st.host.calls)
      ∧ dirtied (init E st).host.calls = dirtied st.host.calls
      ∧ Call.layer_add_child (root_layer (init E st)) (init E st).s_hands_layer
          ∈ (init E st).host.calls
      ∧ (init E st).s_hands_layer ≠ root_layer (init E st) := by
  obtain ⟨_, i2, i3, _, _, _, _, i8, _, i10⟩ := init_effect E st
  refine ⟨?_, ?_, ?_, ?_, ?_, i8, ?_, ?_⟩
  · simp [handle_second_tick, App.record, Host.record, dirtied, root_layer,
      List.filterMap_append]
  · intro w
    cases hb : E.PBL_PLATFORM_BASALT <;>
    simp [window_load, layer_create, gbitmap_create_with_resource, bitmap_layer_create,
      bitmap_layer_get_layer, Host.alloc, Host.record, App.record, dirtied, hb,
      List.filterMap_append]
  · simp [window_unload, layer_destroy, gbitmap_destroy, bitmap_layer_destroy, Host.record,
      release_calls, dirtied, List.filterMap_append]
  · intro l ctx t
    cases hc : E.PBL_COLOR <;>
    simp [hands_update_proc, draw_outlines, draw_center_dot, gpath_rotate_to, gpath_draw_filled,
      gpath_draw_outline, graphics_draw_line, graphics_fill_rect, App.record, Host.record,
      App.set_path, dirtied, hc, List.filterMap_append]
  · intro l ctx
    simp [bg_update_proc, graphics_fill_rect, App.record, Host.record, dirtied,
      List.filterMap_append]
  · rw [i2, i3]; exact i10
  · rw [i2, i3]; simp

/-- C8. `init` sets the translation offset of both hand polygons, once, to the
centre point of the bounds of the window's root layer; `hands_update_proc`
changes only the rotation of the polygons, and neither it nor
`handle_second_tick`, `window_load` or `window_unload` changes the offset or
calls `gpath_move_to`; and when the layer being drawn has the root layer's
bounds and the offset is the centre point of those bounds, the second-hand
line is drawn from that same point. -/
theorem pivot_fixed (E : Env) (st : App) (hand : Hand) :
    (pivot (init E st) hand
        = some (E.grect_center_point
            (layer_get_bounds (init E st).host (root_layer (init E st))))
      ∧ moves hand (init E st).host.calls
        = moves hand st.host.calls
          ++ [E.grect_center_point (layer_get_bounds (init E st).host (root_layer (init E st)))])
      ∧ (∀ l ctx t,
          (hands_update_proc E st l ctx t).1.path hand
              = (st.path hand).map (fun g =>
                  { g with rotation := match hand with
                                       | Hand.hour => hour_angle t
                                       | Hand.minute => minute_angle t })
            ∧ pivot (hands_update_proc E st l ctx t).1 hand = pivot st hand
            ∧ moves hand (hands_update_proc E st l ctx t).1.host.calls = moves hand st.host.calls)
      ∧ (pivot (handle_second_tick st) hand = pivot st hand
            ∧ moves hand (handle_second_tick st).host.calls = moves hand st.host.calls)
      ∧ (∀ w, pivot (window_load E st w) hand = pivot st hand
            ∧ moves hand (window_load E st w).host.calls = moves hand st.host.calls)
      ∧ (pivot (window_unload st) hand = pivot st hand
            ∧ moves hand (window_unload st).host.calls = moves hand st.host.calls)
      ∧ (∀ l ctx t c,
          layer_get_bounds st.host l = layer_get_bounds st.host (root_layer st) →
          pivot st hand = some c →
          c = E.grect_center_point (layer_get_bounds st.host (root_layer st)) →
          lines (hands_update_proc E st l ctx t).1.host.calls
            = lines st.host.calls ++ [(second_hand E (layer_get_bounds st.host l) t, c)]) := by
  obtain ⟨_, _, _, i4, _, i6, i7, _, i9, _⟩ := init_effect E st
  refine ⟨⟨?_, ?_⟩, ?_, ⟨?_, ?_⟩, ?_, ⟨?_, ?_⟩, ?_⟩
  · rw [i4]
    cases hand <;> simp [pivot, App.path, i6, i7]
  · rw [i4]; exact i9 hand
  · intro l ctx t
    cases hc : E.PBL_COLOR <;> cases hand <;>
    simp [hands_update_proc, draw_outlines, draw_center_dot, gpath_rotate_to, gpath_draw_filled,
      gpath_draw_outline, graphics_draw_line, graphics_fill_rect, App.record, Host.record,
      App.set_path, App.path, pivot, moves, hc, List.filterMap_append, Function.comp_def]
  · cases hand <;> simp [handle_second_tick, App.record, pivot, App.path]
  · simp [handle_second_tick, App.record, Host.record, moves, List.filterMap_append]
  · intro w
    cases hb : E.PBL_PLATFORM_BASALT <;> cases hand <;>
    simp [window_load, layer_create, gbitmap_create_with_resource, bitmap_layer_create,
      bitmap_layer_get_layer, Host.alloc, Host.record, App.record, pivot, App.path, moves, hb,
      List.filterMap_append]
  · cases hand <;> simp [window_unload, pivot, App.path]
  · simp [window_unload, layer_destroy, gbitmap_destroy, bitmap_layer_destroy, Host.record,
      release_calls, moves, List.filterMap_append]
  · intro l ctx t c hb _ hc2
    rw [hc2, ← hb]
    cases hc : E.PBL_COLOR <;>
    simp [hands_update_proc, draw_outlines, draw_center_dot, gpath_rotate_to, gpath_draw_filled,
      gpath_draw_outline, graphics_draw_line, graphics_fill_rect, App.record, Host.record,
      App.set_path, lines, hc, List.filterMap_append]

/-- Witness of C8: on the sample platform the pivot of both hands after `init`
is `(72, 84)`, it is still so after a redraw, and the second-hand line of a
redraw of the hands layer at 10:30:15 runs from `(144, 84)` to `(72, 84)`. -/
theorem pivot_fixed_witness :
    pivot demo_loaded Hand.hour = some ⟨72, 84⟩
      ∧ pivot demo_loaded Hand.minute = some ⟨72, 84⟩
      ∧ pivot (hands_update_proc demo demo_loaded 6 demo_ctx ⟨10, 30, 15⟩).1 Hand.minute
          = some ⟨72, 84⟩
      ∧ lines (hands_update_proc demo demo_loaded 6 demo_ctx ⟨10, 30, 15⟩).1.host.calls
          = [(⟨144, 84⟩, ⟨72, 84⟩)] := by
  have a := pivot_fixed demo App.initial Hand.hour
  have b := pivot_fixed demo demo_loaded Hand.minute
  refine ⟨?_, by decide, ?_, ?_⟩
  · exact a.1.1.trans (by decide)
  · rw [(b.2.1 6 demo_ctx ⟨10, 30, 15⟩).2.1]; decide
  · rw [b.2.2.2.2.2 6 demo_ctx ⟨10, 30, 15⟩ ⟨72, 84⟩ (by decide) (by decide) (by decide)]
    decide

/-! ## The end point of the second hand -/

theorem tdiv_ratio_sq (v r : Int) (hr : 0 ≤ r) :
    (Int.tdiv (v * r) TRIG_MAX_RATIO) ^ 2 = (|v| * r / TRIG_MAX_RATIO) ^ 2 := by
  rcases le_or_lt 0 v with hv | hv
  · rw [abs_of_nonneg hv, Int.tdiv_eq_ediv (mul_nonneg hv hr) (by decide)]
  · have e : v * r = -((-v) * r) := by ring
    rw [abs_of_neg hv, e, Int.neg_tdiv, neg_sq,
      Int.tdiv_eq_ediv (mul_nonneg (by omega) hr) (by decide)]

/-- Scaled and truncated legs are not longer than the hand by more than a
pixel. -/
theorem legs_upper {a b r : Int} (ha : 0 ≤ a) (hb : 0 ≤ b) (hr0 : 0 ≤ r)
    (hr1 : 2 * r ≤ 65535)
    (hu : a ^ 2 + b ^ 2 ≤ 65537 ^ 2) :
    (a * r / 65535) ^ 2 + (b * r / 65535) ^ 2 ≤ (r + 1) ^ 2 := by
  have hX : 0 ≤ a * r := mul_nonneg ha hr0
  have hY : 0 ≤ b * r := mul_nonneg hb hr0
  generalize hp : a * r / 65535 = p
  generalize hq : b * r / 65535 = q
  have p0 : 0 ≤ p := by omega
  have q0 : 0 ≤ q := by omega
  have p1 : 65535 * p ≤ a * r := by omega
  have q1 : 65535 * q ≤ b * r := by omega
  have p2 : (65535 * p) ^ 2 ≤ (a * r) ^ 2 := pow_le_pow_left₀ (by omega) p1 2
  have q2 : (65535 * q) ^ 2 ≤ (b * r) ^ 2 := pow_le_pow_left₀ (by omega) q1 2
  have s1 : (a * r) ^ 2 + (b * r) ^ 2 ≤ (65537 * r) ^ 2 := by
    have : (a * r) ^ 2 + (b * r) ^ 2 = (a ^ 2 + b ^ 2) * r ^ 2 := by ring
    rw [this, mul_pow]
    exact mul_le_mul_of_nonneg_right hu (sq_nonneg r)
  have s2 : (65537 * r) ^ 2 ≤ (65535 * (r + 1)) ^ 2 :=
    pow_le_pow_left₀ (by omega) (by omega) 2
  have s3 : 65535 ^ 2 * (p ^ 2 + q ^ 2) ≤ 65535 ^ 2 * (r + 1) ^ 2 := by
    have e1 : (65535 : Int) ^ 2 * (p ^ 2 + q ^ 2) = (65535 * p) ^ 2 + (65535 * q) ^ 2 := by ring
    have e2 : (65535 : Int) ^ 2 * (r + 1) ^ 2 = (65535 * (r + 1)) ^ 2 := by ring
    rw [e1, e2]
    omega
  exact le_of_mul_le_mul_left s3 (by norm_num)

theorem legs_grow {p q m : Int} (m0 : 0 ≤ m)
    (h : p ^ 2 + q ^ 2 ≤ m ^ 2) :
    4 * ((p + 1) ^ 2 + (q + 1) ^ 2) < (2 * m + 3) ^ 2 := by
  have t1 : 2 * (p + q) ≤ 3 * m := by
    by_contra hc
    rw [not_le] at hc
    have c1 : (3 * m + 1) ^ 2 ≤ (2 * (p + q)) ^ 2 := pow_le_pow_left₀ (by omega) (by omega) 2
    nlinarith [sq_nonneg (p - q)]
  nlinarith

/-- Scaled and truncated legs are shorter than the hand by less than two
pixels. -/
theorem legs_lower {a b r : Int} (ha : 0 ≤ a) (hb : 0 ≤ b) (hr0 : 2 ≤ r)
    (hr1 : 4 * r ≤ 65535)
    (hu : 65533 ^ 2 ≤ a ^ 2 + b ^ 2) :
    (r - 2) ^ 2 < (a * r / 65535) ^ 2 + (b * r / 65535) ^ 2 := by
  have hX : 0 ≤ a * r := mul_nonneg ha (by omega)
  have hY : 0 ≤ b * r := mul_nonneg hb (by omega)
  generalize hp : a * r / 65535 = p
  generalize hq : b * r / 65535 = q
  have p0 : 0 ≤ p := by omega
  have q0 : 0 ≤ q := by omega
  have p1 : a * r < 65535 * (p + 1) := by omega
  have q1 : b * r < 65535 * (q + 1) := by omega
  have p2 : (a * r) ^ 2 < (65535 * (p + 1)) ^ 2 := pow_lt_pow_left₀ p1 hX (by decide)
  have q2 : (b * r) ^ 2 < (65535 * (q + 1)) ^ 2 := pow_lt_pow_left₀ q1 hY (by decide)
  have s1 : (65533 * r) ^ 2 ≤ (a * r) ^ 2 + (b * r) ^ 2 := by
    have : (a * r) ^ 2 + (b * r) ^ 2 = (a ^ 2 + b ^ 2) * r ^ 2 := by ring
    rw [this, mul_pow]
    exact mul_le_mul_of_nonneg_right hu (sq_nonneg r)
  by_contra hneg
  rw [not_lt] at hneg
  have m0 : 0 ≤ r - 2 := by omega
  have t2 := legs_grow m0 hneg
  have e0 : 2 * (r - 2) + 3 = 2 * r - 1 := by ring
  rw [e0] at t2
  have t3 : (65535 * (2 * r - 1)) ^ 2 ≤ (2 * (65533 * r)) ^ 2 :=
    pow_le_pow_left₀ (by omega) (by omega) 2
  have t4 : 4 * ((65535 * (p + 1)) ^ 2 + (65535 * (q + 1)) ^ 2)
      < (65535 * (2 * r - 1)) ^ 2 := by
    have e1 : 4 * ((65535 * (p + 1)) ^ 2 + (65535 * (q + 1)) ^ 2)
        = 65535 ^ 2 * (4 * ((p + 1) ^ 2 + (q + 1) ^ 2)) := by ring
    have e2 : (65535 * (2 * r - 1)) ^ 2 = 65535 ^ 2 * (2 * r - 1) ^ 2 := by ring
    rw [e1, e2]
    exact mul_lt_mul_of_pos_left t2 (by norm_num)
  have t5 : (2 * (65533 * r)) ^ 2 = 4 * (65533 * r) ^ 2 := by ring
  omega

theorem tdiv_within_hand {p r : Int} (hr0 : 0 ≤ r) (hr1 : r ≤ 16383) (h1 : -(65537 * r) ≤ p)
    (h2 : p ≤ 65537 * r) :
    -r ≤ Int.tdiv p TRIG_MAX_RATIO ∧ Int.tdiv p TRIG_MAX_RATIO ≤ r := by
  unfold TRIG_MAX_RATIO
  rcases le_or_lt 0 p with hp | hp
  · rw [Int.tdiv_eq_ediv hp (by decide)]
    omega
  · have e : Int.tdiv p 65535 = -(Int.tdiv (-p) 65535) := by
      rw [Int.neg_tdiv, neg_neg]
    rw [e, Int.tdiv_eq_ediv (by omega) (by decide)]
    omega

theorem hand_component_exact {v r : Int} (hr0 : 0 ≤ r) (hr1 : r ≤ 16383) (hv1 : -65537 ≤ v)
    (hv2 : v ≤ 65537) :
    hand_component v r = Int.tdiv (v * r) TRIG_MAX_RATIO
      ∧ -r ≤ hand_component v r ∧ hand_component v r ≤ r := by
  have b1 : -(65537 * r) ≤ v * r := by nlinarith
  have b2 : v * r ≤ 65537 * r := by nlinarith
  have q := tdiv_within_hand hr0 hr1 b1 b2
  have e : hand_component v r = Int.tdiv (v * r) TRIG_MAX_RATIO := by
    unfold hand_component
    rw [wrap32_of_fits (by unfold fits32; omega)]
    exact wrap16_of_fits (by unfold fits16; omega)
  rw [e]
  exact ⟨rfl, q⟩

theorem half_width (bounds : GRect) (h0 : 0 ≤ bounds.size.w) (h1 : bounds.size.w ≤ 32767) :
    second_hand_length bounds = bounds.size.w / 2
      ∧ 0 ≤ second_hand_length bounds ∧ second_hand_length bounds ≤ 16383 := by
  unfold second_hand_length
  rw [Int.tdiv_eq_ediv h0 (by decide), wrap16_of_fits (by unfold fits16; omega)]
  omega

/-- The squared distance of the second-hand end point from the centre, in
terms of the absolute lookup values, when nothing overflows. -/
theorem second_hand_distance (E : Env) (bounds : GRect) (t : Tm)
    (hw : 0 ≤ bounds.size.w ∧ bounds.size.w ≤ 32767)
    (hu : near_unit_circle (E.sin_lookup (second_angle t)) (E.cos_lookup (second_angle t)))
    (hx : fits16 ((E.grect_center_point bounds).x - second_hand_length bounds)
      ∧ fits16 ((E.grect_center_point bounds).x + second_hand_length bounds))
    (hy : fits16 ((E.grect_center_point bounds).y - second_hand_length bounds)
      ∧ fits16 ((E.grect_center_point bounds).y + second_hand_length bounds)) :
    ((second_hand E bounds t).x - (E.grect_center_point bounds).x) ^ 2
        + ((second_hand E bounds t).y - (E.grect_center_point bounds).y) ^ 2
      = (|E.sin_lookup (second_angle t)| * second_hand_length bounds / 65535) ^ 2
        + (|E.cos_lookup (second_angle t)| * second_hand_length bounds / 65535) ^ 2 := by
  obtain ⟨_, r0, r1⟩ := half_width bounds hw.1 hw.2
  unfold near_unit_circle TRIG_MAX_RATIO at hu
  have hS := abs_le_of_sq_le_sq' (a := E.sin_lookup (second_angle t)) (b := 65537)
    (by nlinarith [sq_nonneg (E.cos_lookup (second_angle t))]) (by decide)
  have hC := abs_le_of_sq_le_sq' (a := E.cos_lookup (second_angle t)) (b := 65537)
    (by nlinarith [sq_nonneg (E.sin_lookup (second_angle t))]) (by decide)
  have wn : wrap32 (-(E.cos_lookup (second_angle t))) = -(E.cos_lookup (second_angle t)) :=
    wrap32_of_fits (by unfold fits32; omega)
  unfold fits16 at hx hy
  unfold second_hand
  simp only [wn]
  generalize second_hand_length bounds = r at *
  obtain ⟨e1, l1, u1⟩ := hand_component_exact (v := E.sin_lookup (second_angle t)) r0 r1
    hS.1 hS.2
  obtain ⟨e2, l2, u2⟩ := hand_component_exact (v := -(E.cos_lookup (second_angle t))) r0 r1
    (by omega) (by omega)
  have x1 : wrap16 (hand_component (E.sin_lookup (second_angle t)) r
      + (E.grect_center_point bounds).x)
      = hand_component (E.sin_lookup (second_angle t)) r + (E.grect_center_point bounds).x :=
    wrap16_of_fits (by unfold fits16; omega)
  have y1 : wrap16 (hand_component (-(E.cos_lookup (second_angle t))) r
      + (E.grect_center_point bounds).y)
      = hand_component (-(E.cos_lookup (second_angle t))) r + (E.grect_center_point bounds).y :=
    wrap16_of_fits (by unfold fits16; omega)
  rw [x1, y1, add_sub_cancel_right, add_sub_cancel_right, e1, e2,
    tdiv_ratio_sq _ _ r0, tdiv_ratio_sq _ _ r0, abs_neg]
  rfl

/-- C3 as amended. For every layer width `w` in `0..32767` and every time at
which the pair of lookup values is on the circle of radius `TRIG_MAX_RATIO` up
to two units, when the centre point is at least `w / 2` away from the limits
of `int16_t`: `hands_update_proc` draws the second-hand line from the end
point to the centre, and the Euclidean distance of the end point from the
centre differs from `r = w / 2` by less than two pixels. -/
theorem second_hand_within_two_pixels (E : Env) (st : App) (layer : Handle) (ctx : GContext)
    (t : Tm)
    (hw : 0 ≤ (layer_get_bounds st.host layer).size.w
      ∧ (layer_get_bounds st.host layer).size.w ≤ 32767)
    (hu : near_unit_circle (E.sin_lookup (second_angle t)) (E.cos_lookup (second_angle t)))
    (hx : fits16 ((E.grect_center_point (layer_get_bounds st.host layer)).x
          - second_hand_length (layer_get_bounds st.host layer))
      ∧ fits16 ((E.grect_center_point (layer_get_bounds st.host layer)).x
          + second_hand_length (layer_get_bounds st.host layer)))
    (hy : fits16 ((E.grect_center_point (layer_get_bounds st.host layer)).y
          - second_hand_length (layer_get_bounds st.host layer))
      ∧ fits16 ((E.grect_center_point (layer_get_bounds st.host layer)).y
          + second_hand_length (layer_get_bounds st.host layer))) :
    lines (hands_update_proc E st layer ctx t).1.host.calls
        = lines st.host.calls
          ++ [(second_hand E (layer_get_bounds st.host layer) t,
               E.grect_center_point (layer_get_bounds st.host layer))]
      ∧ second_hand_length (layer_get_bounds st.host layer)
        = (layer_get_bounds st.host layer).size.w / 2
      ∧ off_by_less_than 2 (second_hand E (layer_get_bounds st.host layer) t)
          (E.grect_center_point (layer_get_bounds st.host layer))
          (second_hand_length (layer_get_bounds st.host layer)) := by
  obtain ⟨e0, r0, r1⟩ := half_width (layer_get_bounds st.host layer) hw.1 hw.2
  refine ⟨?_, e0, ?_⟩
  · cases hc : E.PBL_COLOR <;>
    simp [hands_update_proc, draw_outlines, draw_center_dot, gpath_rotate_to, gpath_draw_filled,
      gpath_draw_outline, graphics_draw_line, graphics_fill_rect, App.record, Host.record,
      App.set_path, lines, hc, List.filterMap_append]
  · have d := second_hand_distance E (layer_get_bounds st.host layer) t hw hu hx hy
    unfold off_by_less_than
    rw [d]
    unfold near_unit_circle TRIG_MAX_RATIO at hu
    have sq : |E.sin_lookup (second_angle t)| ^ 2 + |E.cos_lookup (second_angle t)| ^ 2
        = E.sin_lookup (second_angle t) ^ 2 + E.cos_lookup (second_angle t) ^ 2 := by
      rw [sq_abs, sq_abs]
    have up := legs_upper (abs_nonneg (E.sin_lookup (second_angle t)))
      (abs_nonneg (E.cos_lookup (second_angle t))) r0 (by omega) (by rw [sq]; exact hu.2)
    have low := fun h2 => legs_lower (r := second_hand_length (layer_get_bounds st.host layer))
      (abs_nonneg (E.sin_lookup (second_angle t)))
      (abs_nonneg (E.cos_lookup (second_angle t))) h2 (by omega) (by rw [sq]; exact hu.1)
    generalize second_hand_length (layer_get_bounds st.host layer) = r at *
    generalize (|E.sin_lookup (second_angle t)| * r / 65535) ^ 2
      + (|E.cos_lookup (second_angle t)| * r / 65535) ^ 2 = D at *
    have upR : ((D : Int) : ℝ) ≤ ((r : ℝ) + 1) ^ 2 := by exact_mod_cast up
    have r0R : (0 : ℝ) ≤ (r : ℝ) := by exact_mod_cast r0
    have h1 : Real.sqrt ((D : Int) : ℝ) ≤ (r : ℝ) + 1 :=
      (Real.sqrt_le_left (by linarith)).2 upR
    rw [abs_lt]
    refine ⟨?_, by linarith⟩
    rcases lt_or_le r 2 with hr | hr
    · have : (r : ℝ) < 2 := by exact_mod_cast hr
      have := Real.sqrt_nonneg ((D : Int) : ℝ)
      linarith
    · have lowR : ((r : ℝ) - 2) ^ 2 < ((D : Int) : ℝ) := by exact_mod_cast low hr
      have r2 : (0 : ℝ) ≤ (r : ℝ) - 2 := by
        have : (2 : ℝ) ≤ (r : ℝ) := by exact_mod_cast hr
        linarith
      have := (Real.lt_sqrt r2).2 lowR
      linarith

/-- Witness of C3 as amended: on the `144 x 168` screen of the sample platform
the second hand at second 7 ends at `(120, 31)`, `48` pixels right of and `53`
pixels above the centre `(72, 84)`, for a hand of `72` pixels. -/
theorem second_hand_within_two_pixels_witness :
    second_hand demo (layer_get_bounds demo_loaded.host 6) ⟨10, 30, 7⟩ = ⟨120, 31⟩
      ∧ demo.grect_center_point (layer_get_bounds demo_loaded.host 6) = ⟨72, 84⟩
      ∧ second_hand_length (layer_get_bounds demo_loaded.host 6) = 72
      ∧ off_by_less_than 2 (second_hand demo (layer_get_bounds demo_loaded.host 6) ⟨10, 30, 7⟩)
          (demo.grect_center_point (layer_get_bounds demo_loaded.host 6))
          (second_hand_length (layer_get_bounds demo_loaded.host 6)) :=
  ⟨by decide, by decide, by decide,
    (second_hand_within_two_pixels demo demo_loaded 6 demo_ctx ⟨10, 30, 7⟩ (by decide)
      (by decide) (by decide) (by decide)).2.2⟩

theorem short_component {v : Int} (h1 : -49151 ≤ v) (h2 : v ≤ 49151) :
    -2 ≤ hand_component v 4 ∧ hand_component v 4 ≤ 2 := by
  have e : hand_component v 4 = Int.tdiv (v * 4) 65535 := by
    have b := (hand_component_exact (v := v) (r := 4) (by decide) (by decide) (by omega)
      (by omega)).1
    rw [b]; rfl
  rw [e]
  rcases le_or_lt 0 v with hp | hp
  · rw [Int.tdiv_eq_ediv (by omega) (by decide)]
    omega
  · have e2 : Int.tdiv (v * 4) 65535 = -(Int.tdiv (-(v * 4)) 65535) := by
      rw [Int.neg_tdiv, neg_neg]
    rw [e2, Int.tdiv_eq_ediv (by omega) (by decide)]
    omega

/-- The angle of second 7, in radians, and the sine and cosine there. -/
theorem trig_at_second_seven :
    0 ≤ Real.sin (2 * Real.pi * ((7645 : Int) : ℝ) / ((TRIG_MAX_ANGLE : Int) : ℝ))
      ∧ Real.sin (2 * Real.pi * ((7645 : Int) : ℝ) / ((TRIG_MAX_ANGLE : Int) : ℝ)) ≤ 0.733
      ∧ 0 ≤ Real.cos (2 * Real.pi * ((7645 : Int) : ℝ) / ((TRIG_MAX_ANGLE : Int) : ℝ))
      ∧ Real.cos (2 * Real.pi * ((7645 : Int) : ℝ) / ((TRIG_MAX_ANGLE : Int) : ℝ))
          ≤ 0.7465 := by
  have ex : 2 * Real.pi * ((7645 : Int) : ℝ) / ((TRIG_MAX_ANGLE : Int) : ℝ)
      = Real.pi * (7645 / 32768) := by
    unfold TRIG_MAX_ANGLE
    push_cast
    ring
  rw [ex]
  have p1 := Real.pi_gt_d4
  have p2 := Real.pi_lt_d4
  have x1 : 0.7329 ≤ Real.pi * (7645 / 32768) := by linarith
  have x2 : Real.pi * (7645 / 32768) ≤ 0.733 := by linarith
  have xp : Real.pi * (7645 / 32768) ≤ Real.pi := by linarith
  generalize Real.pi * (7645 / 32768) = x at *
  have x0 : 0 ≤ x := by linarith
  have cb := Real.cos_bound (x := x) (by rw [abs_of_nonneg x0]; linarith)
  rw [abs_of_nonneg x0, abs_le] at cb
  have q4 : x ^ 4 ≤ 0.733 ^ 4 := pow_le_pow_left₀ x0 x2 4
  have q2 : (0.7329 : ℝ) ^ 2 ≤ x ^ 2 := pow_le_pow_left₀ (by norm_num) x1 2
  have q3 : x ^ 2 ≤ 0.733 ^ 2 := pow_le_pow_left₀ x0 x2 2
  refine ⟨Real.sin_nonneg_of_nonneg_of_le_pi x0 xp, (Real.sin_le x0).trans x2, ?_, ?_⟩
  · norm_num at q4 q3 cb ⊢
    linarith [cb.1]
  · norm_num at q4 q2 cb ⊢
    linarith [cb.2]

/-- C3 fails on the code. For a layer `8` pixels wide, so that `r = 4`, and
second 7: on every platform whose lookups are within `200` units of
`TRIG_MAX_RATIO` times the sine and the cosine and whose centre point is
`(4, 4)`, the end point is more than one pixel short of `r`; such platforms
exist; and with the sample lookups the end point is `(6, 2)`, two pixels right
of and two pixels above the centre, at distance `√8 < 3`. -/
theorem second_hand_more_than_one_pixel_short :
    (¬ ∃ E : Env, accurate_trig E 200 ∧ E.grect_center_point ⟨⟨0, 0⟩, ⟨8, 8⟩⟩ = ⟨4, 4⟩
        ∧ off_by_at_most 1 (second_hand E ⟨⟨0, 0⟩, ⟨8, 8⟩⟩ ⟨10, 30, 7⟩)
            (E.grect_center_point ⟨⟨0, 0⟩, ⟨8, 8⟩⟩) (second_hand_length ⟨⟨0, 0⟩, ⟨8, 8⟩⟩))
      ∧ (∃ E : Env, accurate_trig E 200 ∧ E.grect_center_point ⟨⟨0, 0⟩, ⟨8, 8⟩⟩ = ⟨4, 4⟩)
      ∧ second_hand demo ⟨⟨0, 0⟩, ⟨8, 8⟩⟩ ⟨10, 30, 7⟩ = ⟨6, 2⟩
      ∧ demo.grect_center_point ⟨⟨0, 0⟩, ⟨8, 8⟩⟩ = ⟨4, 4⟩
      ∧ second_hand_length ⟨⟨0, 0⟩, ⟨8, 8⟩⟩ = 4 := by
  refine ⟨?_, ?_, by decide, by decide, by decide⟩
  · rintro ⟨E, hacc, hcen, hoff⟩
    have ha : second_angle ⟨10, 30, 7⟩ = 7645 := by decide
    have hl : second_hand_length ⟨⟨0, 0⟩, ⟨8, 8⟩⟩ = 4 := by decide
    obtain ⟨hs, hc⟩ := hacc 7645
    obtain ⟨s0, s1, c0, c1⟩ := trig_at_second_seven
    have hR : (( TRIG_MAX_RATIO : Int) : ℝ) = 65535 := by unfold TRIG_MAX_RATIO; norm_num
    rw [hR, abs_le] at hs hc
    have S1 : -49151 ≤ E.sin_lookup 7645 := by
      have : ((-49151 : Int) : ℝ) ≤ ((E.sin_lookup 7645 : Int) : ℝ) := by
        push_cast; nlinarith [hs.1]
      exact_mod_cast this
    have S2 : E.sin_lookup 7645 ≤ 49151 := by
      have : ((E.sin_lookup 7645 : Int) : ℝ) ≤ ((49151 : Int) : ℝ) := by
        push_cast; nlinarith [hs.2]
      exact_mod_cast this
    have C1 : -49151 ≤ E.cos_lookup 7645 := by
      have : ((-49151 : Int) : ℝ) ≤ ((E.cos_lookup 7645 : Int) : ℝ) := by
        push_cast; nlinarith [hc.1]
      exact_mod_cast this
    have C2 : E.cos_lookup 7645 ≤ 49151 := by
      have : ((E.cos_lookup 7645 : Int) : ℝ) ≤ ((49151 : Int) : ℝ) := by
        push_cast; nlinarith [hc.2]
      exact_mod_cast this
    have wn : wrap32 (-(E.cos_lookup 7645)) = -(E.cos_lookup 7645) :=
      wrap32_of_fits (by unfold fits32; omega)
    obtain ⟨a1, a2⟩ := short_component S1 S2
    obtain ⟨b1, b2⟩ := short_component (v := -(E.cos_lookup 7645)) (by omega) (by omega)
    unfold off_by_at_most second_hand at hoff
    simp only [ha, hl, hcen, wn] at hoff
    rw [wrap16_of_fits (by unfold fits16; omega), wrap16_of_fits (by unfold fits16; omega),
      add_sub_cancel_right, add_sub_cancel_right, abs_le] at hoff
    generalize hand_component (E.sin_lookup 7645) 4 = dx at *
    generalize hand_component (-(E.cos_lookup 7645)) 4 = dy at *
    have h3 : (3 : ℝ) ≤ Real.sqrt (((dx ^ 2 + dy ^ 2 : Int)) : ℝ) := by
      have := hoff.1
      push_cast at this ⊢
      linarith
    rw [Real.le_sqrt (by norm_num) (by positivity)] at h3
    have h9 : (9 : Int) ≤ dx ^ 2 + dy ^ 2 := by
      have : ((9 : Int) : ℝ) ≤ ((dx ^ 2 + dy ^ 2 : Int) : ℝ) := by
        push_cast at h3 ⊢
        linarith
      exact_mod_cast this
    nlinarith
  · refine ⟨⟨false, false,
        fun a => ⌊( TRIG_MAX_RATIO : ℝ) * Real.sin (2 * Real.pi * a / TRIG_MAX_ANGLE)⌋,
        fun a => ⌊( TRIG_MAX_RATIO : ℝ) * Real.cos (2 * Real.pi * a / TRIG_MAX_ANGLE)⌋,
        demo_center, ⟨[]⟩, ⟨[]⟩, default⟩, ?_, by decide⟩
    intro a
    constructor
    · have f1 := Int.floor_le
        (( TRIG_MAX_RATIO : ℝ) * Real.sin (2 * Real.pi * a / TRIG_MAX_ANGLE))
      have f2 := Int.lt_floor_add_one
        (( TRIG_MAX_RATIO : ℝ) * Real.sin (2 * Real.pi * a / TRIG_MAX_ANGLE))
      rw [abs_le]
      constructor <;> linarith
    · have f1 := Int.floor_le
        (( TRIG_MAX_RATIO : ℝ) * Real.cos (2 * Real.pi * a / TRIG_MAX_ANGLE))
      have f2 := Int.lt_floor_add_one
        (( TRIG_MAX_RATIO : ℝ) * Real.cos (2 * Real.pi * a / TRIG_MAX_ANGLE))
      rw [abs_le]
      constructor <;> linarith

end Subtle
